import Mathlib

/-!
Verification of the RPC dispatch / UI-state reconciliation core of the
unlockpi-ai-web repository.

The embedding follows the TypeScript sources:
  * `src/hooks/use-rpc-handler.ts`          — registration state machine
  * `src/app/talk/_components/talk-background.tsx` (`ClassroomInner`)
                                            — classroom reconciler rules
  * `src/app/talk/_hooks/use-board-rpc.ts`  — talk-page reconciler rules
  * `src/components/content-panel.tsx` (`splitTextOnHighlights`)
                                            — highlight matcher
  * `src/hooks/use-audio-analyzer.ts`       — signal extractor

Decoded RPC payloads are untyped JavaScript values produced by
`JSON.parse` (or the raw string when parsing fails); we model them as a
JSON value type.  JavaScript numbers are modelled as integers (every
value the claims exercise is integral).  Property access `payload.x`
throws a TypeError on `null` and yields `undefined` (modelled as `none`)
on every other non-object value; this is captured by `getField` below.
-/

inductive JsonV where
  | null : JsonV
  | bool (b : Bool) : JsonV
  | num (n : Int) : JsonV
  | str (s : String) : JsonV
  | arr (xs : List JsonV) : JsonV
  | obj (fields : List (String × JsonV)) : JsonV

/-- JavaScript truthiness of a decoded value (`NaN` is not modelled). -/
def JsonV.truthy : JsonV → Bool
  | .null => false
  | .bool b => b
  | .num n => decide (n ≠ 0)
  | .str s => decide (s ≠ "")
  | .arr _ => true
  | .obj _ => true

def JsonV.lookupField : List (String × JsonV) → String → Option JsonV
  | [], _ => none
  | (k, v) :: rest, key => if k = key then some v else JsonV.lookupField rest key

/-- JavaScript property read `payload.k`: a TypeError on `null`,
`undefined` (`none`) on any non-object value, field lookup on objects. -/
def getField : JsonV → String → Except String (Option JsonV)
  | .null, k => .error ("TypeError: cannot read properties of null reading " ++ k)
  | .obj fs, k => .ok (JsonV.lookupField fs k)
  | _, _ => .ok none

/-- Total field lookup, agreeing with `getField` away from `null`. -/
def fieldOf : JsonV → String → Option JsonV
  | .obj fs, k => JsonV.lookupField fs k
  | _, _ => none

/-- Truthiness of a possibly-`undefined` value (`undefined` is falsy). -/
def truthyO : Option JsonV → Bool
  | none => false
  | some v => v.truthy

/-!
## Classroom reconciler (`ClassroomInner` in talk-background.tsx)

`DisplayState` collects the React state the RPC handlers mutate.  The
handlers store whatever (truthy) decoded value the payload carried, so
the fields hold raw `JsonV` values, exactly as the untyped `setState`
calls do.  Sounds (`playReveal`, `playBuzzer`) and the `setTimeout`
scheduled by `show_student_focus` are recorded as effects.
-/

inductive Effect where
  | scheduleFocusClear : Effect
  | playReveal : Effect
  | playBuzzer : Effect
deriving DecidableEq

inductive ViewMode where
  | content : ViewMode
  | cognitive_test : ViewMode
deriving DecidableEq

/-- One entry built by the `start_cognitive_test` handler:
`payload.answers.map(a => (\x7b text: a.text, percentage: a.percentage,
revealed: false \x7d))`.  Fields read off an untyped element may be
`undefined`, hence `Option JsonV`. -/
structure CogAnswer where
  text : Option JsonV
  percentage : Option JsonV
  revealed : Bool

structure DisplayState where
  content : JsonV
  highlights : JsonV
  focusedStudent : JsonV
  viewMode : ViewMode
  cognitiveQuestion : JsonV
  cognitiveAnswers : List CogAnswer
  teamScores : JsonV

/-- Initial React state of `ClassroomPage`. -/
def initClassroomState : DisplayState where
  content := JsonV.str
    "The quick brown fox jumps over the lazy dog. Programming is fun, and Artificial Intelligence helps us learn faster."
  highlights := JsonV.arr []
  focusedStudent := JsonV.null
  viewMode := ViewMode.content
  cognitiveQuestion := JsonV.str ""
  cognitiveAnswers := []
  teamScores := JsonV.obj
    [("Team Alpha", JsonV.num 0), ("Team Beta", JsonV.num 0), ("Team Gamma", JsonV.num 0)]

/-- `a.text` / `a.percentage` reads inside the `answers.map` callback;
raises a TypeError when the element is `null`. -/
def decodeAnswer (el : JsonV) : Except String CogAnswer :=
  match getField el "text" with
  | .error e => .error e
  | .ok t =>
    match getField el "percentage" with
    | .error e => .error e
    | .ok p => .ok ⟨t, p, false⟩

/-- `newAnswers[index].revealed = true` guarded by
`if (newAnswers[index])`: out-of-range or negative indices touch
nothing. -/
def revealAt : List CogAnswer → Int → List CogAnswer
  | [], _ => []
  | a :: rest, n =>
    if n = 0 then { a with revealed := true } :: rest
    else a :: revealAt rest (n - 1)

inductive Method where
  | highlight_text : Method
  | update_content : Method
  | show_student_focus : Method
  | start_cognitive_test : Method
  | reveal_answer : Method
  | update_scores : Method
  | show_error_buzzer : Method
deriving DecidableEq

/-- The classroom RPC handlers of `ClassroomInner`, one rule per method,
transcribed branch by branch.  `JSON.parse` never yields `undefined`,
so each handler receives a `JsonV` (a raw string payload that failed to
parse arrives as `JsonV.str`).  A thrown TypeError is the `.error`
case, which `useRpcHandler` propagates to the remote caller. -/
def applyRule (m : Method) (payload : JsonV) (s : DisplayState) :
    Except String (DisplayState × List Effect) :=
  match m with
  | .highlight_text =>
    -- if (payload.words) then setHighlights(payload.words); setViewMode("content")
    match getField payload "words" with
    | .error e => .error e
    | .ok w =>
      if truthyO w then
        .ok ({ s with highlights := w.getD JsonV.null, viewMode := ViewMode.content }, [])
      else .ok (s, [])
  | .update_content =>
    -- if (payload.text) then setContent; setHighlights([]); setViewMode("content")
    match getField payload "text" with
    | .error e => .error e
    | .ok t =>
      if truthyO t then
        .ok ({ s with content := t.getD JsonV.null, highlights := JsonV.arr [],
                      viewMode := ViewMode.content }, [])
      else .ok (s, [])
  | .show_student_focus =>
    -- if (payload.studentName) then setFocusedStudent; setTimeout(clear, 5000)
    match getField payload "studentName" with
    | .error e => .error e
    | .ok n =>
      if truthyO n then
        .ok ({ s with focusedStudent := n.getD JsonV.null }, [Effect.scheduleFocusClear])
      else .ok (s, [])
  | .start_cognitive_test =>
    -- if (payload.question && payload.answers) then build answers via .map
    match getField payload "question" with
    | .error e => .error e
    | .ok q =>
      if truthyO q then
        match getField payload "answers" with
        | .error e => .error e
        | .ok a =>
          if truthyO a then
            match a with
            | some (JsonV.arr xs) =>
              match xs.mapM decodeAnswer with
              | .error e => .error e
              | .ok answers =>
                .ok ({ s with cognitiveQuestion := q.getD JsonV.null,
                              cognitiveAnswers := answers,
                              viewMode := ViewMode.cognitive_test }, [])
            | _ => .error "TypeError: payload.answers.map is not a function"
          else .ok (s, [])
      else .ok (s, [])
  | .reveal_answer =>
    -- if (typeof payload.index === "number") then reveal; playReveal()
    match getField payload "index" with
    | .error e => .error e
    | .ok (some (JsonV.num n)) =>
      .ok ({ s with cognitiveAnswers := revealAt s.cognitiveAnswers n },
           [Effect.playReveal])
    | .ok _ => .ok (s, [])
  | .update_scores =>
    -- if (payload.scores) then setTeamScores(payload.scores)
    match getField payload "scores" with
    | .error e => .error e
    | .ok sc =>
      if truthyO sc then .ok ({ s with teamScores := sc.getD JsonV.null }, [])
      else .ok (s, [])
  | .show_error_buzzer =>
    -- handler never touches the payload; it only plays the buzzer
    .ok (s, [Effect.playBuzzer])

/-- The required payload field of each rule, per the spec's rule table. -/
def requiredFields : Method → List String
  | .highlight_text => ["words"]
  | .update_content => ["text"]
  | .show_student_focus => ["studentName"]
  | .start_cognitive_test => ["question", "answers"]
  | .reveal_answer => ["index"]
  | .update_scores => ["scores"]
  | .show_error_buzzer => []

/-!
## Talk-page reconciler (`useBoardRPC` in use-board-rpc.ts)
-/

structure BoardState where
  boardText : JsonV
  boardHighlights : JsonV

def initBoardState : BoardState where
  boardText := JsonV.str ""
  boardHighlights := JsonV.arr []

inductive BoardMethod where
  | update_content : BoardMethod
  | highlight_text : BoardMethod
  | clear_board : BoardMethod
  | show_student_focus : BoardMethod
deriving DecidableEq

/-- The four handlers registered by `useBoardRPC`.  Note the guard on
`update_content` here is `payload.text !== undefined`, unlike the
classroom rule's truthiness check. -/
def applyBoardRule (m : BoardMethod) (payload : JsonV) (s : BoardState) :
    Except String (BoardState × List Effect) :=
  match m with
  | .update_content =>
    -- if (payload.text !== undefined) then setBoardText; setBoardHighlights([])
    match getField payload "text" with
    | .error e => .error e
    | .ok (some v) => .ok (⟨v, JsonV.arr []⟩, [])
    | .ok none => .ok (s, [])
  | .highlight_text =>
    -- if (payload.words) then setBoardHighlights(payload.words)
    match getField payload "words" with
    | .error e => .error e
    | .ok w =>
      if truthyO w then .ok ({ s with boardHighlights := w.getD JsonV.null }, [])
      else .ok (s, [])
  | .clear_board =>
    -- the handler takes no payload argument and clears both fields
    .ok (⟨JsonV.str "", JsonV.arr []⟩, [])
  | .show_student_focus =>
    -- logged and ignored on the talk page
    .ok (s, [])

/-!
## Focus auto-clear timers (`show_student_focus` in `ClassroomInner`)

A small temporal model of the handler's side effects.  `focusCall`
is the handler body at a given instant: it sets the focused student and
schedules `setFocusedStudent(null)` to fire 5 time units later.  The
source never calls `clearTimeout`, so the new fire time is simply
appended to the pending queue.  `fireNext` is the earliest pending
timeout firing: its callback clears the focus unconditionally.
-/

structure FocusState where
  focused : Option String
  pending : List Nat
deriving DecidableEq

def initFocusState : FocusState where
  focused := none
  pending := []

/-- `show_student_focus` handler body at time `now` with a truthy
student name (the empty string is falsy and skips the branch). -/
def focusCall (now : Nat) (name : String) (s : FocusState) : FocusState :=
  if name = "" then s
  else { focused := some name, pending := s.pending ++ [now + 5] }

/-- The earliest pending `setTimeout` fires: `setFocusedStudent(null)`. -/
def fireNext (s : FocusState) : FocusState :=
  match s.pending with
  | [] => s
  | _ :: rest => { focused := none, pending := rest }

/-!
## Registration state machine (`useRpcHandler` in use-rpc-handler.ts)

The hook keeps three refs: `handlerRef` (the mutable indirection cell,
reassigned on every render), `registeredRef`, and `unregisterRef`.  Its
effect runs when `[room, method]` changes; React runs the cleanup of
the previous effect invocation first, when that invocation returned
one.  `active` is the list of transport bindings currently installed on
the session by `registerRpcMethod` (each gets a fresh id); `bound` is
the binding `unregisterRef.current` would remove.  Handler ids stand in
for handler function identities.
-/

structure RegState where
  handlerCell : Nat
  registered : Bool
  hasCleanup : Bool
  bound : Option Nat
  active : List Nat
  nextId : Nat
deriving DecidableEq

def initRegState : RegState where
  handlerCell := 0
  registered := false
  hasCleanup := false
  bound := none
  active := []
  nextId := 1

/-- The cleanup returned by the previous effect invocation, if any:
`if (unregisterRef.current) unregister(); registeredRef.current = false`. -/
def runCleanup (s : RegState) : RegState :=
  if s.hasCleanup then
    match s.bound with
    | some b => { s with active := s.active.erase b, registered := false, hasCleanup := false }
    | none => { s with hasCleanup := false }
  else s

/-- One invocation of the effect body.  `ready` is
`room && room.localParticipant`.  The not-ready and already-registered
branches return early without a cleanup; otherwise
`registerRpcMethod` installs a fresh binding. -/
def effectRun (ready : Bool) (s : RegState) : RegState :=
  if !ready then { s with registered := false, hasCleanup := false }
  else if s.registered then { s with hasCleanup := false }
  else
    { s with active := s.active ++ [s.nextId], bound := some s.nextId,
             registered := true, hasCleanup := true, nextId := s.nextId + 1 }

/-- One React commit: the render assigns `handlerRef.current = handler`;
then, when the effect deps changed (`effect = some ready`), the pending
cleanup runs followed by the effect body. -/
structure Commit where
  handler : Nat
  effect : Option Bool
deriving DecidableEq

def commitStep (s : RegState) (c : Commit) : RegState :=
  let s1 := { s with handlerCell := c.handler }
  match c.effect with
  | none => s1
  | some ready => effectRun ready (runCleanup s1)

def runCommits (cs : List Commit) : RegState := cs.foldl commitStep initRegState

/-- An inbound call on the installed binding invokes
`handlerRef.current`, the latest rendered handler. -/
def dispatch (s : RegState) : Nat := s.handlerCell

/-- Reachability invariant of the registration machine: either nothing
is registered and no binding is installed, or exactly one binding is
installed, it is the one the pending cleanup would remove, and a
cleanup is pending. -/
def regInv (s : RegState) : Prop :=
  (s.registered = false ∧ s.active = []) ∨
  (∃ b, s.registered = true ∧ s.active = [b] ∧ s.bound = some b ∧ s.hasCleanup = true)

/-!
## Highlight matcher (`splitTextOnHighlights` in content-panel.tsx)

The source builds one case-insensitive alternation regex over the
escaped term words and calls `text.split(pattern)` with the alternation
as a capturing group.  Because every alternative is an escaped literal,
the regex matches a term exactly when the term is a case-insensitive
prefix of the remaining text, alternatives tried in list order
(`escapeRegExp` is thereby embedded: terms are matched as literals).
`splitGo` is the ECMAScript `String.prototype.split` algorithm for such
a pattern, capturing the separators and handling zero-width matches the
way the standard prescribes (a zero-width match at the current segment
start only advances the scan).  Recursion is driven by a fuel argument
that the wrapper instantiates above the text length; every step
consumes at least one character, so the fuel never runs out.
-/

/-- `toLowerCase()` as a character-wise map (ASCII-faithful, matching
`Char.toLower`). -/
def lowerStr (s : String) : String := String.mk (s.data.map Char.toLower)

/-- `HighlightWord` of the source; `ty` is its `type` field
(`positions` is never read by `splitTextOnHighlights`). -/
structure HighlightTerm where
  word : String
  ty : String
deriving DecidableEq

/-- Case-insensitive literal match of a term's characters against a
prefix of the text; returns the matched original-case characters and
the rest. -/
def ciMatch : List Char → List Char → Option (List Char × List Char)
  | [], cs => some ([], cs)
  | _ :: _, [] => none
  | p :: ps, c :: cs =>
    if p.toLower = c.toLower then
      match ciMatch ps cs with
      | some (m, r) => some (c :: m, r)
      | none => none
    else none

/-- The alternation `(term1|term2|...)` attempted at one position:
alternatives are tried in list order, as ECMAScript alternation does. -/
def altMatch (terms : List String) (cs : List Char) : Option (List Char × List Char) :=
  terms.findSome? fun t => ciMatch t.data cs

def splitGo (terms : List String) : Nat → List Char → List Char → List String
  | 0, pending, _ => [String.mk pending.reverse]
  | _ + 1, pending, [] => [String.mk pending.reverse]
  | fuel + 1, pending, c :: rest =>
    match altMatch terms (c :: rest) with
    | none => splitGo terms fuel (c :: pending) rest
    | some ([], _) =>
      if pending.isEmpty then splitGo terms fuel [c] rest
      else String.mk pending.reverse :: "" :: splitGo terms fuel [c] rest
    | some (m :: ms, after) =>
      String.mk pending.reverse :: String.mk (m :: ms) :: splitGo terms fuel [] after

/-- `text.split(new RegExp("(" + escaped alternation + ")", "gi"))`. -/
def jsSplitCapture (terms : List String) (text : String) : List String :=
  splitGo terms (text.length + 1) [] text.data

/-- An output fragment: plain text, or a span annotated with the
matched term's type (the style lookup consumes the type downstream). -/
inductive Frag where
  | plain (s : String) : Frag
  | mark (s : String) (ty : String) : Frag
deriving DecidableEq

def isMark : Frag → Bool
  | .plain _ => false
  | .mark _ _ => true

/-- `splitTextOnHighlights`: early return of the raw text when there
are no highlights or no text, otherwise split on the alternation and
annotate every part that case-insensitively equals some term's word. -/
def splitTextOnHighlights (highlights : List HighlightTerm) (text : String) : List Frag :=
  if highlights.isEmpty || text.isEmpty then [Frag.plain text]
  else
    (jsSplitCapture (highlights.map fun h => h.word) text).map fun part =>
      match highlights.find? (fun h => lowerStr h.word = lowerStr part) with
      | some h => Frag.mark part h.ty
      | none => Frag.plain part

/-- Concatenation of the rendered text of the fragments. -/
def renderFrags (fs : List Frag) : String :=
  fs.foldl (fun acc f => acc ++ (match f with | .plain s => s | .mark s _ => s)) ""

/-!
## Signal extractor (`useAudioAnalyzer` in use-audio-analyzer.ts)

`TrackSource` is the duck-typed argument: the hook inspects
`publication.track.mediaStreamTrack`, then `track.mediaStreamTrack`,
then whether the value is itself a raw `MediaStreamTrack`.  The
effect's no-track branch resets the data to `fftSize / 2` zeros; the
attached branch publishes each byte bin divided by 255.
-/

structure MediaTrack where
  id : Nat
deriving DecidableEq

structure InnerTrack where
  mediaStreamTrack : Option MediaTrack
deriving DecidableEq

structure Publication where
  track : Option InnerTrack
deriving DecidableEq

structure TrackSource where
  publication : Option Publication
  track : Option InnerTrack
  rawTrack : Option MediaTrack
deriving DecidableEq

/-- The `useMemo` body resolving a `MediaStreamTrack` from whichever
shape was received. -/
def resolveMediaStreamTrack (src : Option TrackSource) : Option MediaTrack :=
  match src with
  | none => none
  | some s =>
    match s.publication.bind (fun p => p.track.bind fun t => t.mediaStreamTrack) with
    | some t => some t
    | none =>
      match s.track.bind fun t => t.mediaStreamTrack with
      | some t => some t
      | none => s.rawTrack

/-- The data the hook publishes: `new Array(fftSize / 2).fill(0)` when
no track resolves, otherwise the current byte bins normalized by 255. -/
def analyzerData (fftSize : Nat) (src : Option TrackSource) (rawBins : List Nat) : List ℚ :=
  match resolveMediaStreamTrack src with
  | none => List.replicate (fftSize / 2) 0
  | some _ => rawBins.map fun v => (v : ℚ) / 255

/-!
## Concrete states used by counterexamples
-/

/-- A classroom state with a non-empty highlight set. -/
def highlightedState : DisplayState :=
  { initClassroomState with highlights := JsonV.arr [JsonV.str "fox"] }

/-- The decoded payload of `update_content` carrying the empty string. -/
def emptyTextPayload : JsonV := JsonV.obj [("text", JsonV.str "")]

/-- A classroom state and a board state agreeing on content and
highlights. -/
def pairedClassroomState : DisplayState :=
  { initClassroomState with content := JsonV.str "x",
                            highlights := JsonV.arr [JsonV.str "w"] }

def pairedBoardState : BoardState :=
  { boardText := JsonV.str "x", boardHighlights := JsonV.arr [JsonV.str "w"] }

/-!
## Theorems
-/

theorem getField_eq_fieldOf (p : JsonV) (k : String) (h : p ≠ JsonV.null) :
    getField p k = .ok (fieldOf p k) := by
  cases p <;> simp [getField, fieldOf] at h ⊢

theorem fieldOf_ne_null (p : JsonV) (k : String) (v : JsonV)
    (h : fieldOf p k = some v) : p ≠ JsonV.null := by
  intro hp
  subst hp
  simp [fieldOf] at h

/-- Claim C6: HighlightMatcher round-trip.  With an empty term list the
transform is the identity on every text; on the text "The cat sat" with
the single term (word "cat", category "noun"), the concatenation of the
output fragments is exactly the input text and exactly one fragment,
"cat", is annotated as a match. -/
theorem highlight_matcher_roundtrip :
    (∀ text : String, splitTextOnHighlights [] text = [Frag.plain text]) ∧
    splitTextOnHighlights [⟨"cat", "noun"⟩] "The cat sat" =
      [Frag.plain "The ", Frag.mark "cat" "noun", Frag.plain " sat"] ∧
    renderFrags (splitTextOnHighlights [⟨"cat", "noun"⟩] "The cat sat") = "The cat sat" ∧
    (splitTextOnHighlights [⟨"cat", "noun"⟩] "The cat sat").filter isMark =
      [Frag.mark "cat" "noun"] := by
  refine ⟨fun text => ?_, rfl, rfl, rfl⟩
  simp [splitTextOnHighlights]

/-- Claim C7: a term with a zero-length word is NOT ignored by
`splitTextOnHighlights`.  On the text "ab", the term list holding only
the empty word yields three fragments — the characters "a" and "b"
separated by an empty annotated match — whereas removing the
zero-length term (leaving the empty list) yields the untouched text.
The empty regex alternative matches between every pair of characters,
so the two outputs differ, contradicting the claim. -/
theorem empty_word_term_not_ignored :
    splitTextOnHighlights [⟨"", "noun"⟩] "ab" =
      [Frag.plain "a", Frag.mark "" "noun", Frag.plain "b"] ∧
    splitTextOnHighlights [] "ab" = [Frag.plain "ab"] ∧
    splitTextOnHighlights [⟨"", "noun"⟩] "ab" ≠ splitTextOnHighlights [] "ab" := by
  refine ⟨rfl, rfl, ?_⟩
  intro h
  rw [show splitTextOnHighlights [⟨"", "noun"⟩] "ab" =
        [Frag.plain "a", Frag.mark "" "noun", Frag.plain "b"] from rfl,
      show splitTextOnHighlights [] "ab" = [Frag.plain "ab"] from rfl] at h
  exact absurd h (by decide)

/-- Claim C2: the `show_student_focus` handler schedules a fresh
auto-clear on every call and never cancels the previous one.  After
`show_student_focus("Karan")` at time 0 and `show_student_focus("Meera")`
at time 2 (within the 5-unit delay), TWO auto-clears are pending (fire
times 5 and 7), not one; the earlier one, scheduled for Karan, fires
first and clears Meera's focus at time 5.  This contradicts the claimed
cancel-before-reschedule semantics. -/
theorem show_student_focus_timer_race :
    (focusCall 2 "Meera" (focusCall 0 "Karan" initFocusState)).pending = [5, 7] ∧
    (focusCall 2 "Meera" (focusCall 0 "Karan" initFocusState)).pending.length = 2 ∧
    (focusCall 2 "Meera" (focusCall 0 "Karan" initFocusState)).focused = some "Meera" ∧
    (fireNext (focusCall 2 "Meera" (focusCall 0 "Karan" initFocusState))).focused = none ∧
    (fireNext (focusCall 2 "Meera" (focusCall 0 "Karan" initFocusState))).pending = [7] := by
  refine ⟨rfl, rfl, rfl, rfl, rfl⟩

/-- Claim C9: whenever the track source is absent or resolves to no
media track, the analyzer's output is the zero-filled sequence of
length `fftSize / 2` (half the configured fftSize), every element 0. -/
theorem signal_extractor_zero_when_no_track
    (fftSize : Nat) (src : Option TrackSource) (rawBins : List Nat)
    (h : resolveMediaStreamTrack src = none) :
    analyzerData fftSize src rawBins = List.replicate (fftSize / 2) 0 ∧
    (analyzerData fftSize src rawBins).length = fftSize / 2 ∧
    ∀ x ∈ analyzerData fftSize src rawBins, x = 0 := by
  have hd : analyzerData fftSize src rawBins = List.replicate (fftSize / 2) 0 := by
    unfold analyzerData
    rw [h]
  refine ⟨hd, ?_, ?_⟩
  · rw [hd, List.length_replicate]
  · intro x hx
    rw [hd] at hx
    exact List.eq_of_mem_replicate hx

/-- Witness for C9: a `TrackReference`-shaped source whose publication
carries no track resolves to no media track, and the analyzer output at
the default fftSize 64 is 32 zeros. -/
theorem signal_extractor_zero_when_no_track_witness :
    resolveMediaStreamTrack (some ⟨some ⟨none⟩, none, none⟩) = none ∧
    analyzerData 64 (some ⟨some ⟨none⟩, none, none⟩) [] = List.replicate 32 0 :=
  ⟨rfl, (signal_extractor_zero_when_no_track 64 (some ⟨some ⟨none⟩, none, none⟩) [] rfl).1⟩

/-- Counterexample to claim C1: a payload with `words` absent does NOT
clear the highlight set.  Applying `highlight_text` to the empty-object
payload from a state with a non-empty highlight set leaves the state
unchanged, its highlights still non-empty. -/
theorem highlight_text_absent_words_keeps_highlights :
    applyRule Method.highlight_text (JsonV.obj []) highlightedState =
      .ok (highlightedState, []) ∧
    highlightedState.highlights ≠ JsonV.arr [] := by
  refine ⟨rfl, ?_⟩
  rw [show highlightedState.highlights = JsonV.arr [JsonV.str "fox"] from rfl]
  simp

/-- Claim C1 as amended: when `words` is present and truthy (any array,
including the empty array, is truthy) both highlight_text rules replace
the highlight set wholesale with the payload's words; when `words` is
absent or falsy the rules are no-ops that leave the existing highlights
unchanged — absence does not clear, while an empty `words` array clears
only because replacement by `[]` yields the empty set. -/
theorem highlight_text_replace_semantics
    (payload : JsonV) (s : DisplayState) (sb : BoardState)
    (hnull : payload ≠ JsonV.null) :
    (∀ v, fieldOf payload "words" = some v → v.truthy = true →
      applyRule Method.highlight_text payload s =
        .ok ({ s with highlights := v, viewMode := ViewMode.content }, []) ∧
      applyBoardRule BoardMethod.highlight_text payload sb =
        .ok ({ sb with boardHighlights := v }, [])) ∧
    (truthyO (fieldOf payload "words") = false →
      applyRule Method.highlight_text payload s = .ok (s, []) ∧
      applyBoardRule BoardMethod.highlight_text payload sb = .ok (sb, [])) := by
  constructor
  · intro v hfw htv
    constructor
    · simp [applyRule, getField_eq_fieldOf payload "words" hnull, hfw, truthyO, htv,
            Except.bind]
    · simp [applyBoardRule, getField_eq_fieldOf payload "words" hnull, hfw, truthyO,
            htv, Except.bind]
  · intro hfalse
    constructor
    · simp [applyRule, getField_eq_fieldOf payload "words" hnull, hfalse, Except.bind]
    · simp [applyBoardRule, getField_eq_fieldOf payload "words" hnull, hfalse,
            Except.bind]

/-- Witness for C1 (amended): the payload carrying the empty `words`
array replaces the highlight set by `[]` on both pages. -/
theorem highlight_text_replace_semantics_witness :
    (JsonV.obj [("words", JsonV.arr [])] ≠ JsonV.null) ∧
    applyRule Method.highlight_text (JsonV.obj [("words", JsonV.arr [])])
        highlightedState =
      .ok ({ highlightedState with highlights := JsonV.arr [],
                                   viewMode := ViewMode.content }, []) := by
  refine ⟨by simp, ?_⟩
  exact ((highlight_text_replace_semantics (JsonV.obj [("words", JsonV.arr [])])
    highlightedState initBoardState (by simp)).1 (JsonV.arr []) rfl rfl).1

/-- Counterexample to claim C4: a payload whose `text` IS present but
equal to the empty string does not replace the content, does not clear
the highlights, and does not switch the view — the empty string is
falsy, so the classroom `update_content` handler's `if (payload.text)`
guard skips the whole body. -/
theorem update_content_empty_text_is_noop :
    applyRule Method.update_content emptyTextPayload highlightedState =
      .ok (highlightedState, []) ∧
    fieldOf emptyTextPayload "text" = some (JsonV.str "") ∧
    highlightedState.highlights ≠ JsonV.arr [] := by
  refine ⟨rfl, rfl, ?_⟩
  rw [show highlightedState.highlights = JsonV.arr [JsonV.str "fox"] from rfl]
  simp

/-- Claim C4 as amended: for every payload in which `text` is present
and truthy (a non-empty string), the classroom `update_content` rule
replaces the content text, clears the highlight set to `[]`, and
switches the view mode to "content"; a payload whose `text` is present
but falsy (in particular the empty string) is a no-op. -/
theorem update_content_truthy_replaces
    (payload : JsonV) (s : DisplayState) (v : JsonV)
    (hv : fieldOf payload "text" = some v) :
    (v.truthy = true →
      applyRule Method.update_content payload s =
        .ok ({ s with content := v, highlights := JsonV.arr [],
                      viewMode := ViewMode.content }, [])) ∧
    (v.truthy = false →
      applyRule Method.update_content payload s = .ok (s, [])) := by
  have hnull := fieldOf_ne_null payload "text" v hv
  constructor
  · intro htv
    simp [applyRule, getField_eq_fieldOf payload "text" hnull, hv, truthyO, htv]
  · intro htv
    simp [applyRule, getField_eq_fieldOf payload "text" hnull, hv, truthyO, htv]

/-- Witness for C4 (amended): a non-empty `text` replaces the content
and clears a previously non-empty highlight set. -/
theorem update_content_truthy_replaces_witness :
    fieldOf (JsonV.obj [("text", JsonV.str "hi")]) "text" = some (JsonV.str "hi") ∧
    (JsonV.str "hi").truthy = true ∧
    applyRule Method.update_content (JsonV.obj [("text", JsonV.str "hi")])
        highlightedState =
      .ok ({ highlightedState with content := JsonV.str "hi",
                                   highlights := JsonV.arr [],
                                   viewMode := ViewMode.content }, []) := by
  refine ⟨rfl, rfl, ?_⟩
  exact (update_content_truthy_replaces (JsonV.obj [("text", JsonV.str "hi")])
    highlightedState (JsonV.str "hi") rfl).1 rfl

/-- Counterexample to claim C10: the two `update_content` rules are not
observationally equivalent.  Starting from a classroom state and a
board state that agree on content and highlights, the payload with
`text` equal to the empty string leaves the classroom state untouched
(empty string is falsy) while the talk-page rule — whose guard is
`payload.text !== undefined` — replaces the board text with the empty
string and clears the board highlights; the resulting content texts
(and highlight sets) differ. -/
theorem update_content_rules_not_equivalent :
    pairedClassroomState.content = pairedBoardState.boardText ∧
    pairedClassroomState.highlights = pairedBoardState.boardHighlights ∧
    applyRule Method.update_content emptyTextPayload pairedClassroomState =
      .ok (pairedClassroomState, []) ∧
    applyBoardRule BoardMethod.update_content emptyTextPayload pairedBoardState =
      .ok (⟨JsonV.str "", JsonV.arr []⟩, []) ∧
    pairedClassroomState.content ≠ (JsonV.str "") ∧
    pairedClassroomState.highlights ≠ (JsonV.arr []) := by
  refine ⟨rfl, rfl, rfl, rfl, ?_, ?_⟩
  · rw [show pairedClassroomState.content = JsonV.str "x" from rfl]
    simp
  · rw [show pairedClassroomState.highlights = JsonV.arr [JsonV.str "w"] from rfl]
    simp

/-- Claim C10 as amended: the talk-page and classroom `update_content`
rules are observationally equivalent — same resulting content text and
highlight set from agreeing starting states — for every non-null
payload whose `text` field, when present, is truthy; they diverge
exactly on payloads whose `text` is present but falsy (e.g. the empty
string). -/
theorem update_content_rules_agree_on_truthy
    (payload : JsonV) (sc : DisplayState) (sb : BoardState)
    (hnull : payload ≠ JsonV.null)
    (hc : sc.content = sb.boardText)
    (hh : sc.highlights = sb.boardHighlights)
    (ht : ∀ v, fieldOf payload "text" = some v → v.truthy = true) :
    ∃ sc2 sb2,
      applyRule Method.update_content payload sc = .ok (sc2, []) ∧
      applyBoardRule BoardMethod.update_content payload sb = .ok (sb2, []) ∧
      sc2.content = sb2.boardText ∧
      sc2.highlights = sb2.boardHighlights := by
  cases hfw : fieldOf payload "text" with
  | none =>
    refine ⟨sc, sb, ?_, ?_, hc, hh⟩
    · simp [applyRule, getField_eq_fieldOf payload "text" hnull, hfw, truthyO]
    · simp [applyBoardRule, getField_eq_fieldOf payload "text" hnull, hfw]
  | some v =>
    have htv := ht v hfw
    refine ⟨{ sc with content := v, highlights := JsonV.arr [],
                      viewMode := ViewMode.content },
            ⟨v, JsonV.arr []⟩, ?_, ?_, rfl, rfl⟩
    · simp [applyRule, getField_eq_fieldOf payload "text" hnull, hfw, truthyO, htv]
    · simp [applyBoardRule, getField_eq_fieldOf payload "text" hnull, hfw]

/-- Witness for C10 (amended): on the payload with `text` equal to
"hello" the two rules land on the same content and highlights. -/
theorem update_content_rules_agree_on_truthy_witness :
    (JsonV.obj [("text", JsonV.str "hello")] ≠ JsonV.null) ∧
    initClassroomState.content = JsonV.str
      "The quick brown fox jumps over the lazy dog. Programming is fun, and Artificial Intelligence helps us learn faster." ∧
    (∃ sc2 sb2,
      applyRule Method.update_content (JsonV.obj [("text", JsonV.str "hello")])
          initClassroomState = .ok (sc2, []) ∧
      applyBoardRule BoardMethod.update_content (JsonV.obj [("text", JsonV.str "hello")])
          ⟨initClassroomState.content, initClassroomState.highlights⟩ = .ok (sb2, []) ∧
      sc2.content = sb2.boardText ∧
      sc2.highlights = sb2.boardHighlights) := by
  refine ⟨by simp, rfl, ?_⟩
  exact update_content_rules_agree_on_truthy
    (JsonV.obj [("text", JsonV.str "hello")]) initClassroomState
    ⟨initClassroomState.content, initClassroomState.highlights⟩
    (by simp) rfl rfl
    (fun v hv => by
      rw [show fieldOf (JsonV.obj [("text", JsonV.str "hello")]) "text" =
            some (JsonV.str "hello") from rfl] at hv
      cases hv
      rfl)

/-- Counterexample to claim C3: applying a rule to the decoded JSON
value `null` DOES raise.  `payload.words` on `null` is a TypeError,
which the registration wrapper re-throws to the remote caller. -/
theorem null_payload_raises :
    applyRule Method.highlight_text JsonV.null initClassroomState =
      .error "TypeError: cannot read properties of null reading words" ∧
    applyRule Method.start_cognitive_test
        (JsonV.obj [("question", JsonV.str "q"), ("answers", JsonV.num 1)])
        initClassroomState =
      .error "TypeError: payload.answers.map is not a function" := by
  exact ⟨rfl, rfl⟩

/-- Claim C3 as amended: for every rule and every non-null decoded
payload (objects with the field missing, raw strings, numbers,
booleans, arrays — on all of which a property read yields `undefined`),
if one of the rule's required fields is absent then applying the rule
raises nothing and leaves the DisplayState unchanged; the
`show_error_buzzer` rule never reads its payload and is safe and
state-preserving even on `null`.  Payloads decoding to JSON `null`
(and truthy non-array `answers` values) raise a TypeError instead. -/
theorem rules_defensive_on_absent_fields :
    (∀ (m : Method) (payload : JsonV) (s : DisplayState),
      payload ≠ JsonV.null →
      (∃ k, k ∈ requiredFields m ∧ fieldOf payload k = none) →
      applyRule m payload s = .ok (s, [])) ∧
    (∀ (payload : JsonV) (s : DisplayState),
      applyRule Method.show_error_buzzer payload s = .ok (s, [Effect.playBuzzer])) := by
  constructor
  · intro m payload s hnull ⟨k, hk, habs⟩
    cases m with
    | highlight_text =>
      simp [requiredFields] at hk
      subst hk
      simp [applyRule, getField_eq_fieldOf payload "words" hnull, habs, truthyO]
    | update_content =>
      simp [requiredFields] at hk
      subst hk
      simp [applyRule, getField_eq_fieldOf payload "text" hnull, habs, truthyO]
    | show_student_focus =>
      simp [requiredFields] at hk
      subst hk
      simp [applyRule, getField_eq_fieldOf payload "studentName" hnull, habs, truthyO]
    | start_cognitive_test =>
      simp [requiredFields] at hk
      rcases hk with hk | hk
      · subst hk
        simp [applyRule, getField_eq_fieldOf payload "question" hnull, habs, truthyO]
      · subst hk
        cases hq : truthyO (fieldOf payload "question") with
        | false =>
          simp [applyRule, getField_eq_fieldOf payload "question" hnull, hq]
        | true =>
          simp [applyRule, getField_eq_fieldOf payload "question" hnull, hq,
                getField_eq_fieldOf payload "answers" hnull, habs, truthyO]
    | reveal_answer =>
      simp [requiredFields] at hk
      subst hk
      simp [applyRule, getField_eq_fieldOf payload "index" hnull, habs]
    | update_scores =>
      simp [requiredFields] at hk
      subst hk
      simp [applyRule, getField_eq_fieldOf payload "scores" hnull, habs, truthyO]
    | show_error_buzzer =>
      simp [requiredFields] at hk
  · intro payload s
    rfl

/-- Witness for C3 (amended): the empty-object payload has every
required field absent, and `update_content` leaves the initial state
unchanged on it. -/
theorem rules_defensive_on_absent_fields_witness :
    (JsonV.obj [] ≠ JsonV.null) ∧
    fieldOf (JsonV.obj []) "text" = none ∧
    applyRule Method.update_content (JsonV.obj []) initClassroomState =
      .ok (initClassroomState, []) := by
  refine ⟨by simp, rfl, ?_⟩
  exact rules_defensive_on_absent_fields.1 Method.update_content (JsonV.obj [])
    initClassroomState (by simp) ⟨"text", by simp [requiredFields], rfl⟩

theorem revealAt_getElem? (l : List CogAnswer) (n : Int) (i : Nat) :
    (revealAt l n)[i]? =
      if n = (i : Int) then (l[i]?).map (fun a => { a with revealed := true })
      else l[i]? := by
  induction l generalizing n i with
  | nil => simp [revealAt]
  | cons a rest ih =>
    by_cases hn : n = 0
    · subst hn
      cases i with
      | zero => simp [revealAt]
      | succ j =>
        have hne : ¬((0 : Int) = (j : Int) + 1) := by omega
        simp [revealAt, hne]
    · cases i with
      | zero =>
        have hne : ¬(n = ((0 : Nat) : Int)) := by simpa using hn
        simp [revealAt, hn, hne]
      | succ j =>
        simp [revealAt, hn]
        rw [ih (n - 1) j]
        by_cases h2 : n - 1 = (j : Int)
        · rw [if_pos h2, if_pos (by omega)]
        · rw [if_neg h2, if_neg (by omega)]

theorem revealAt_out_of_range (l : List CogAnswer) (n : Int)
    (h : n < 0 ∨ (l.length : Int) ≤ n) : revealAt l n = l := by
  induction l generalizing n with
  | nil => rfl
  | cons a rest ih =>
    have hn : ¬(n = 0) := by
      simp at h
      omega
    simp [revealAt, hn]
    apply ih
    simp at h
    omega

/-- Claim C8: on a numeric `index`, the `reveal_answer` rule returns
without raising; the answer at a valid index gets its revealed flag set
to true (all other entries untouched); any out-of-range or negative
index leaves the answers list exactly unchanged. -/
theorem reveal_answer_semantics (payload : JsonV) (s : DisplayState) (n : Int)
    (h : fieldOf payload "index" = some (JsonV.num n)) :
    applyRule Method.reveal_answer payload s =
      .ok ({ s with cognitiveAnswers := revealAt s.cognitiveAnswers n },
           [Effect.playReveal]) ∧
    (∀ i : Nat, (revealAt s.cognitiveAnswers n)[i]? =
      if n = (i : Int) then
        (s.cognitiveAnswers[i]?).map (fun a => { a with revealed := true })
      else s.cognitiveAnswers[i]?) ∧
    ((n < 0 ∨ (s.cognitiveAnswers.length : Int) ≤ n) →
      revealAt s.cognitiveAnswers n = s.cognitiveAnswers) := by
  have hnull := fieldOf_ne_null payload "index" (JsonV.num n) h
  refine ⟨?_, fun i => revealAt_getElem? s.cognitiveAnswers n i,
          revealAt_out_of_range s.cognitiveAnswers n⟩
  simp [applyRule, getField_eq_fieldOf payload "index" hnull, h]

/-- Witness for C8: revealing index 0 of a one-answer list flips its
flag, and index 5 on the same list is a no-op. -/
theorem reveal_answer_semantics_witness :
    fieldOf (JsonV.obj [("index", JsonV.num 5)]) "index" = some (JsonV.num 5) ∧
    applyRule Method.reveal_answer (JsonV.obj [("index", JsonV.num 5)])
        { initClassroomState with
            cognitiveAnswers := [⟨some (JsonV.str "A"), some (JsonV.num 40), false⟩] } =
      .ok ({ initClassroomState with
               cognitiveAnswers :=
                 revealAt [⟨some (JsonV.str "A"), some (JsonV.num 40), false⟩] 5 },
           [Effect.playReveal]) ∧
    revealAt [⟨some (JsonV.str "A"), some (JsonV.num 40), false⟩] 5 =
      [⟨some (JsonV.str "A"), some (JsonV.num 40), false⟩] := by
  refine ⟨rfl, ?_, ?_⟩
  · exact (reveal_answer_semantics (JsonV.obj [("index", JsonV.num 5)])
      { initClassroomState with
          cognitiveAnswers := [⟨some (JsonV.str "A"), some (JsonV.num 40), false⟩] }
      5 rfl).1
  · exact (reveal_answer_semantics (JsonV.obj [("index", JsonV.num 5)])
      { initClassroomState with
          cognitiveAnswers := [⟨some (JsonV.str "A"), some (JsonV.num 40), false⟩] }
      5 rfl).2.2 (by simp)

theorem runCleanup_clean (s : RegState) (h : regInv s) :
    (runCleanup s).registered = false ∧ (runCleanup s).active = [] := by
  unfold runCleanup
  rcases h with ⟨h1, h2⟩ | ⟨b, h1, h2, h3, h4⟩
  · cases hcl : s.hasCleanup with
    | false => simp [hcl, h1, h2]
    | true =>
      cases hb : s.bound with
      | none => simp [hcl, hb, h1, h2]
      | some b => simp [hcl, hb, h1, h2]
  · simp [h4, h3, h2]

theorem effectRun_regInv (ready : Bool) (t : RegState)
    (h1 : t.registered = false) (h2 : t.active = []) :
    regInv (effectRun ready t) := by
  unfold effectRun
  cases ready with
  | false => exact Or.inl ⟨rfl, by simpa using h2⟩
  | true =>
    simp [h1]
    exact Or.inr ⟨t.nextId, rfl, by simp [h2], rfl, rfl⟩

theorem regInv_commitStep (s : RegState) (c : Commit) (h : regInv s) :
    regInv (commitStep s c) := by
  obtain ⟨hc, eff⟩ := c
  cases eff with
  | none =>
    rcases h with ⟨h1, h2⟩ | ⟨b, h1, h2, h3, h4⟩
    · exact Or.inl ⟨h1, h2⟩
    · exact Or.inr ⟨b, h1, h2, h3, h4⟩
  | some ready =>
    have hs1 : regInv { s with handlerCell := hc } := by
      rcases h with ⟨h1, h2⟩ | ⟨b, h1, h2, h3, h4⟩
      · exact Or.inl ⟨h1, h2⟩
      · exact Or.inr ⟨b, h1, h2, h3, h4⟩
    obtain ⟨c1, c2⟩ := runCleanup_clean _ hs1
    exact effectRun_regInv ready _ c1 c2

theorem regInv_runCommits (cs : List Commit) : regInv (runCommits cs) := by
  have hgen : ∀ t, regInv t → regInv (cs.foldl commitStep t) := by
    induction cs with
    | nil => intro t ht; exact ht
    | cons c rest ih =>
      intro t ht
      exact ih _ (regInv_commitStep t c ht)
  exact hgen initRegState (Or.inl ⟨rfl, rfl⟩)

theorem runCleanup_handlerCell (s : RegState) :
    (runCleanup s).handlerCell = s.handlerCell := by
  unfold runCleanup
  cases hcl : s.hasCleanup with
  | false => simp [hcl]
  | true => cases hb : s.bound with
    | none => simp [hcl, hb]
    | some b => simp [hcl, hb]

theorem effectRun_handlerCell (ready : Bool) (s : RegState) :
    (effectRun ready s).handlerCell = s.handlerCell := by
  unfold effectRun
  cases ready with
  | false => rfl
  | true => cases hr : s.registered with
    | false => simp [hr]
    | true => simp [hr]

theorem commitStep_handlerCell (s : RegState) (c : Commit) :
    (commitStep s c).handlerCell = c.handler := by
  obtain ⟨hc, eff⟩ := c
  cases eff with
  | none => rfl
  | some ready =>
    show (effectRun ready (runCleanup { s with handlerCell := hc })).handlerCell = hc
    rw [effectRun_handlerCell, runCleanup_handlerCell]

/-- Claim C5: after any sequence of React commits the registration
machine keeps at most one active transport binding per (session,
method); the effect body run while `registeredRef` is set is a silent
no-op that neither installs a new binding nor replaces the one the
cleanup targets; and an inbound call is always dispatched to the
handler of the latest render via the `handlerRef` indirection cell. -/
theorem rpc_registration_idempotent :
    (∀ cs : List Commit, (runCommits cs).active.length ≤ 1) ∧
    (∀ (t : RegState) (ready : Bool), t.registered = true →
      (effectRun ready t).active = t.active ∧ (effectRun ready t).bound = t.bound) ∧
    (∀ (cs : List Commit) (c : Commit),
      dispatch (runCommits (cs ++ [c])) = c.handler) := by
  refine ⟨?_, ?_, ?_⟩
  · intro cs
    rcases regInv_runCommits cs with ⟨_, h2⟩ | ⟨b, _, h2, _, _⟩ <;> simp [h2]
  · intro t ready hreg
    unfold effectRun
    cases ready with
    | false => exact ⟨rfl, rfl⟩
    | true => simp [hreg]
  · intro cs c
    show (List.foldl commitStep initRegState (cs ++ [c])).handlerCell = c.handler
    rw [List.foldl_append]
    exact commitStep_handlerCell _ c

/-- Witness for C5: one ready commit installs exactly one binding; a
spurious second effect-body run on the resulting registered state
leaves the binding untouched; a later render updates the dispatch
target without re-registering. -/
theorem rpc_registration_idempotent_witness :
    (runCommits [⟨7, some true⟩]).active.length ≤ 1 ∧
    (runCommits [⟨7, some true⟩]).registered = true ∧
    (effectRun true (runCommits [⟨7, some true⟩])).active =
      (runCommits [⟨7, some true⟩]).active ∧
    dispatch (runCommits ([⟨7, some true⟩] ++ [⟨9, none⟩])) = 9 :=
  ⟨rpc_registration_idempotent.1 [⟨7, some true⟩], rfl,
   (rpc_registration_idempotent.2.1 (runCommits [⟨7, some true⟩]) true rfl).1,
   rpc_registration_idempotent.2.2 [⟨7, some true⟩] ⟨9, none⟩⟩
